import Mathlib

/-!
Verification of the `snapped` distributed-debugger core.

A shallow embedding, in Lean 4, of the core data structures and algorithms
of the `gdb-machine` crate:

* the hierarchical ID factory (`TreeIdFactory`, `src/gdb-machine/src/metadata.rs`);
* the locality string-distance metric (`strdistance`, `src/gdb-machine/src/tools.rs`);
* backtrace components: generation and merging
  (`ProgramSnapshot::generate_components` / `components_merge`);
* the tree node's seen-children registry and the `pivot` attachment algorithm
  (`TreeState`, `src/gdb-machine/src/lib.rs`);
* the error-aggregation policy of the tree-level debugger operations;
* the MI driver's `symbols` precondition and `StopReason` parsing.

Rust `u64` arithmetic is modelled on `Nat` with explicit reduction modulo
`2 ^ 64` at every operation that can wrap (release-mode wrapping semantics).
Rust `HashMap`s are modelled as association lists; where the source iterates
a `HashMap` in unspecified order the list order stands for one such order,
and every concrete run used by a theorem below is arranged to be
order-independent (strict unique minima, fresh keys).
-/

namespace Snapped

/-- Modulus for Rust `u64` arithmetic. -/
def U64 : Nat := 2 ^ 64

/-- Rust `TREE_ARITY` from `metadata.rs`. -/
def TREE_ARITY : Nat := 24

/-- Rust `TreeIdFactory` from `metadata.rs`: an allocatable integer range. -/
structure TreeIdFactory where
  root_id : Nat
  dynamic : Nat
  stride : Nat
  offset : Nat
deriving Repr, DecidableEq

namespace TreeIdFactory

/-- Rust `TreeIdFactory::default()`: root factory over the whole `u64` range. -/
def default : TreeIdFactory :=
  { root_id := 0
    dynamic := U64 - 1
    stride := (U64 - 1 - 1) / TREE_ARITY
    offset := 0 }

/-- Rust `TreeIdFactory::inherit(&mut self)`: returns the derived child factory
together with the updated parent.  The source returns `Result` but every
path ends in `Ok`, which the embedding mirrors: the `Except` is always
`Except.ok`.  `u64` operations wrap modulo `2 ^ 64`. -/
def inherit (f : TreeIdFactory) : Except String TreeIdFactory × TreeIdFactory :=
  let root_id := (f.root_id + 1 + f.stride * f.offset % U64) % U64
  let offset' := (f.offset + 1) % U64
  let dynamic := ((f.dynamic + (U64 - 1)) % U64) / TREE_ARITY
  let stride := dynamic / TREE_ARITY
  (Except.ok { root_id := root_id, dynamic := dynamic, stride := stride, offset := 0 },
   { f with offset := offset' })

/-- Rust `TreeIdFactory::id()`. -/
def id (f : TreeIdFactory) : Nat := f.root_id

/-- Rust `TreeIdFactory::full()`. -/
def full (f : TreeIdFactory) : Bool := f.offset = TREE_ARITY

end TreeIdFactory

/-- Repeated `inherit()`:  returns the parent after `n` calls and the list of
the `n` children in call order.  (The error arm never fires: `inherit`
always returns `Except.ok`.) -/
def inheritN (f : TreeIdFactory) : Nat → TreeIdFactory × List TreeIdFactory
  | 0 => (f, [])
  | n + 1 =>
    match f.inherit with
    | (Except.ok c, f') =>
      let (g, cs) := inheritN f' n
      (g, c :: cs)
    | (Except.error _, f') => (f', [])

/-- The dynamic value every child derived from `f` receives:
`(f.dynamic - 1) / TREE_ARITY` in wrapping `u64` arithmetic. -/
def childDynamic (f : TreeIdFactory) : Nat :=
  ((f.dynamic + (U64 - 1)) % U64) / TREE_ARITY

/-! ## The locality string-distance metric (`tools.rs::strdistance`)

Rust strings are modelled as `List Char`.  `String::len()` is the UTF-8
byte length, which the embedding computes from `Char.utf8Size`;
`chars().nth(i)` is positional char access. -/

/-- Rust `String::len()`: UTF-8 byte length of the char sequence. -/
def byteLen (l : List Char) : Nat := (l.map Char.utf8Size).sum

/-- Rust `a.chars().nth(i).map(|v| v as u64).unwrap_or(0)` from `strdistance`. -/
def charCodeAt (l : List Char) (i : Nat) : Nat :=
  match l.get? i with
  | some c => c.toNat
  | none => 0

/-- Rust `tools.rs::strdistance`: sum over `i < max(a.len(), b.len())` of
`|aᵢ - bᵢ|` on char codes, with 0 past the end of a string.  The loop bound
is the max *byte* length, exactly as in the source. -/
def strdistance (a b : List Char) : Nat :=
  ((List.range (max (byteLen a) (byteLen b))).map
    (fun i => Nat.dist (charCodeAt a i) (charCodeAt b i))).sum

/-- Modelled from the spec's words (§4.3), for comparison with `strdistance`:
`L = max(|a|, |b|)` *in characters*; distance `= Σ_{i<L} |cᵢ(a) − cᵢ(b)|`
where `cᵢ(x) = ord(x[i])` if `i < |x|` else 0. -/
def specStrDistance (a b : List Char) : Nat :=
  ((List.range (max a.length b.length)).map
    (fun i => Nat.dist (charCodeAt a i) (charCodeAt b i))).sum

/-! ## Metadata: stop reasons, frames, backtrace elements (`metadata.rs`) -/

/-- Rust `StopReason` from `metadata.rs`. -/
structure StopReason where
  reason : String
  disp : Option String
  breakpoint_num : Option Nat
  addr : Option String
  function : Option String
  meaning : Option String
  signal_name : Option String
  file : Option String
  fullname : Option String
  line : Option Nat
  arch : Option String
  thread_id : Option Nat
  stopped_threads : Option String
  core : Option Nat
  exit_code : Option Int
deriving Repr, DecidableEq

namespace StopReason

/-- Rust `StopReason::is_sigint()`. -/
def is_sigint (r : StopReason) : Bool :=
  match r.signal_name with
  | some sig => sig = "SIGINT"
  | none => false

/-- Rust `StopReason::exited()`. -/
def exited (r : StopReason) : Bool :=
  r.reason = "exited" || r.reason = "exited-normally"

end StopReason

/-- Rust `DisplayState` from `metadata.rs`. -/
structure DisplayState where
  reason : String
  signal_name : Option String
  exit_code : Option Int
deriving Repr, DecidableEq

/-- Rust `DisplayFrame` from `metadata.rs`. -/
structure DisplayFrame where
  func : String
  file : Option String
  line : Option Nat
deriving Repr, DecidableEq

/-- Rust `BacktraceState` from `metadata.rs`. -/
inductive BacktraceState where
  | Frame (f : DisplayFrame)
  | State (s : DisplayState)
deriving Repr, DecidableEq

/-- Rust `DebugFrame` from `metadata.rs` (one stack frame). -/
structure DebugFrame where
  level : Nat
  addr : String
  func : String
  file : Option String
  fullname : Option String
  line : Option Nat
  from_ : Option String
  arch : Option String
  args : Option (List (String × String))
  locals : Option (List (String × String))
deriving Repr, DecidableEq

/-- Rust `impl From<&DebugFrame> for BacktraceState`. -/
def BacktraceState.ofFrame (v : DebugFrame) : BacktraceState :=
  BacktraceState.Frame { func := v.func, file := v.fullname, line := v.line }

/-- Rust `impl From<&StopReason> for BacktraceState`. -/
def BacktraceState.ofStop (v : StopReason) : BacktraceState :=
  BacktraceState.State
    { reason := v.reason, signal_name := v.signal_name, exit_code := v.exit_code }

/-- Rust `DebugFrame::to_component`. -/
def DebugFrame.to_component (comp : List DebugFrame) : List BacktraceState :=
  comp.map BacktraceState.ofFrame

/-- Rust `ProgramSnapshot` from `metadata.rs`: the thread-id → frames `HashMap`
as an association list, plus the optional stop reason. -/
structure ProgramSnapshot where
  state : List (Nat × List DebugFrame)
  stop_state : Option StopReason
deriving Repr, DecidableEq

/-- Aggregated components: the `HashMap<u64, (u64, Vec<BacktraceState>)>`
as an association list `hash ↦ (count, elements)`. -/
abbrev CompMap := List (Nat × Nat × List BacktraceState)

/-- One `HashMap` update step shared by `generate_components` and
`components_merge`: if `h` is present add `cnt` to its count (`get_mut` +
`*cnt += …`), otherwise `insert` a fresh entry `(h, (cnt, l))`. -/
def compInsertAdd (m : CompMap) (h cnt : Nat) (l : List BacktraceState) : CompMap :=
  match m with
  | [] => [(h, cnt, l)]
  | (k, c0, l0) :: rest =>
    if k = h then (k, c0 + cnt, l0) :: rest
    else (k, c0, l0) :: compInsertAdd rest h cnt l

/-- The per-thread element list built in the body of
`ProgramSnapshot::generate_components`: the optional stop-state prefix
(empty when the stop reason is absent or is SIGINT) followed by the
thread's frames mapped through `DebugFrame::to_component`. -/
def threadComponent (stop : Option StopReason) (frames : List DebugFrame) :
    List BacktraceState :=
  (match stop with
   | some stop_reason =>
     match stop_reason.is_sigint with
     | true => []
     | false => [BacktraceState.ofStop stop_reason]
   | none => []) ++ DebugFrame.to_component frames

/-- Rust `ProgramSnapshot::generate_components`, parameterised by the structural
hash function (`DefaultHasher` in the source, opaque here): iterate the
snapshots, then each thread's frame list, hash the built element list and
insert-or-count it. -/
def generate_components (hashFn : List BacktraceState → Nat)
    (dist_state : List (Nat × ProgramSnapshot)) : CompMap :=
  dist_state.foldl
    (fun components snapEntry =>
      snapEntry.2.state.foldl
        (fun components thEntry =>
          let comp := threadComponent snapEntry.2.stop_state thEntry.2
          compInsertAdd components (hashFn comp) 1 comp)
        components)
    []

/-- The inner fold of `components_merge`: drain the entries of `m` into
`first`, summing counts on hash collision. -/
def mergeInto (first m : CompMap) : CompMap :=
  m.foldl (fun acc e => compInsertAdd acc e.1 e.2.1 e.2.2) first

/-- Rust `ProgramSnapshot::components_merge`: `Vec::pop` takes the *last* map as
the accumulator, then the remaining maps are drained into it in order. -/
def components_merge (maps : List CompMap) : CompMap :=
  match maps.getLast? with
  | some first => maps.dropLast.foldl mergeInto first
  | none => []

/-- The count a component map assigns to hash `h` (sum over entries keyed
`h`; component maps have unique keys, so this is the stored count). -/
def countOf : CompMap → Nat → Nat
  | [], _ => 0
  | (k, c, _) :: rest, h => (if k = h then c else 0) + countOf rest h

/-! ## Generic association-list operations (model of `HashMap`) -/

/-- Rust `HashMap::get`: first entry with the given key. -/
def listLookup {α β : Type} [DecidableEq α] : List (α × β) → α → Option β
  | [], _ => none
  | (k, v) :: rest, a => if k = a then some v else listLookup rest a

/-- Rust `HashMap::insert`: replace the entry if the key is present, otherwise
add it (appended; a `HashMap` has no observable order). -/
def listInsertReplace {α β : Type} [DecidableEq α] :
    List (α × β) → α → β → List (α × β)
  | [], k, v => [(k, v)]
  | (k0, v0) :: rest, k, v =>
    if k0 = k then (k, v) :: rest else (k0, v0) :: listInsertReplace rest k v

/-! ## GDB output parsing (`tools.rs` / `metadata.rs::StopReason::new`)

The source uses two constant regexes.  The embedding implements their
(deterministic) matching semantics directly over `List Char`:

* `([a-z\-]+)="([^"]+)"` — both classes are quantifier-greedy but the
  follow-set is disjoint from each class, so matching is backtracking-free;
  `captures_iter` scans left to right, resuming after each match;
* `(args=\[.*\])` with `Regex::replace` — leftmost match start, `.`
  excludes `'\n'`, greedy `.*` then `']'` takes the last `']'` on the line.
-/

/-- The char class `[a-z\-]`. -/
def isKeyChar (c : Char) : Bool := ('a' ≤ c && c ≤ 'z') || c = '-'

/-- Try to match `([a-z\-]+)="([^"]+)"` at the head of `s`; on success
return the two capture groups and the consumed length. -/
def matchKeyVal (s : List Char) : Option ((List Char × List Char) × Nat) :=
  let k := s.takeWhile isKeyChar
  if k.isEmpty then none
  else
    match s.drop k.length with
    | '=' :: '"' :: t =>
      let v := t.takeWhile (fun c => c ≠ '"')
      if v.isEmpty then none
      else
        match t.drop v.length with
        | '"' :: _ => some ((k, v), k.length + 2 + v.length + 1)
        | _ => none
    | _ => none

/-- Rust `captures_iter` scan, fuelled for structural recursion: each step
either consumes a whole match or advances one char, so `s.length` fuel is
always enough. -/
def scanPairsFuel : Nat → List Char → List (List Char × List Char)
  | 0, _ => []
  | fuel + 1, s =>
    match matchKeyVal s with
    | some (kv, n) => kv :: scanPairsFuel fuel (s.drop n)
    | none =>
      match s with
      | [] => []
      | _ :: rest => scanPairsFuel fuel rest

/-- All `([a-z\-]+)="([^"]+)"` matches of `s`, left to right. -/
def scanPairs (s : List Char) : List (List Char × List Char) :=
  scanPairsFuel s.length s

/-- Rust `tools.rs::parse_gdb_equal_list`: `HashMap::from_iter` over the match
pairs — later pairs overwrite earlier ones with the same key. -/
def parse_gdb_equal_list (s : List Char) : List (List Char × List Char) :=
  (scanPairs s).foldl (fun m kv => listInsertReplace m kv.1 kv.2) []

/-- Index of the last `']'` of the list, if any. -/
def lastBracket : List Char → Option Nat
  | [] => none
  | c :: rest =>
    match lastBracket rest with
    | some i => some (i + 1)
    | none => if c = ']' then some 0 else none

/-- Match `args=\[.*\]` at the head of `s`: the literal `args=[`, then the
greedy `.*` (anything but `'\n'`) followed by `']'`, i.e. up to the last
`']'` on the line.  Returns the match length. -/
def argsMatchLenAt (s : List Char) : Option Nat :=
  match s with
  | 'a' :: 'r' :: 'g' :: 's' :: '=' :: '[' :: t =>
    let line := t.takeWhile (fun c => c ≠ '\n')
    match lastBracket line with
    | some i => some (6 + i + 1)
    | none => none
  | _ => none

/-- Leftmost match of `args=\[.*\]` in `s`: `(start, length)`. -/
def findArgsMatch : List Char → Option (Nat × Nat)
  | [] => none
  | c :: rest =>
    match argsMatchLenAt (c :: rest) with
    | some n => some (0, n)
    | none => (findArgsMatch rest).map (fun pn => (pn.1 + 1, pn.2))

/-- Rust `arg_re.replace(resp, "")` from `StopReason::new`: delete the leftmost
`args=\[.*\]` match, if any. -/
def stripArgs (s : List Char) : List Char :=
  match findArgsMatch s with
  | some (p, n) => s.take p ++ s.drop (p + n)
  | none => s

/-- Decimal value of a digit list (helper for the Rust `parse::<uN>`). -/
def digitsVal (l : List Char) : Nat :=
  l.foldl (fun acc c => acc * 10 + (c.toNat - 48)) 0

/-- Rust `str::parse::<u32>()`: optional `'+'`, then one or more digits,
in range. -/
def parseU32 (l : List Char) : Option Nat :=
  let l' := match l with | '+' :: t => t | _ => l
  if l'.isEmpty || !l'.all Char.isDigit then none
  else if digitsVal l' < 2 ^ 32 then some (digitsVal l') else none

/-- Rust `str::parse::<i32>()`: optional sign, then one or more digits,
in range. -/
def parseI32 (l : List Char) : Option Int :=
  match l with
  | '-' :: t =>
    if t.isEmpty || !t.all Char.isDigit then none
    else if digitsVal t ≤ 2 ^ 31 then some (-(digitsVal t : Int)) else none
  | '+' :: t =>
    if t.isEmpty || !t.all Char.isDigit then none
    else if digitsVal t < 2 ^ 31 then some (digitsVal t : Int) else none
  | t =>
    if t.isEmpty || !t.all Char.isDigit then none
    else if digitsVal t < 2 ^ 31 then some (digitsVal t : Int) else none

/-- Rust `StopReason::new(resp)`: strip the `args=[…]` group, run
`parse_gdb_equal_list`, then fill every field from the map with its
default when absent.  The two `?` points in the source are constant-regex
compilations that cannot fail, so the function always returns `Ok`. -/
def StopReason.new (resp : List Char) : Except String StopReason :=
  let resp_no_arg := stripArgs resp
  let map := parse_gdb_equal_list resp_no_arg
  Except.ok
    { reason := ((listLookup map "reason".toList).map String.mk).getD ""
      disp := (listLookup map "disp".toList).map String.mk
      breakpoint_num := (listLookup map "breakpoint_num".toList).bind parseU32
      addr := (listLookup map "addr".toList).map String.mk
      function := (listLookup map "function".toList).map String.mk
      meaning := (listLookup map "meaning".toList).map String.mk
      signal_name := (listLookup map "signal-name".toList).map String.mk
      file := (listLookup map "file".toList).map String.mk
      fullname := (listLookup map "fullname".toList).map String.mk
      line := (listLookup map "line".toList).bind parseU32
      arch := (listLookup map "arch".toList).map String.mk
      thread_id := (listLookup map "thread_id".toList).bind parseU32
      stopped_threads := (listLookup map "stopped_threads".toList).map String.mk
      core := (listLookup map "core".toList).bind parseU32
      exit_code := (listLookup map "exit-code".toList).bind parseI32 }

/-! ## Run state, responses and the tree node's debugger-surface operations
(`metadata.rs::RunState`, `protocol.rs`, `lib.rs::TreeState`) -/

/-- Rust `RunState` from `metadata.rs`. -/
inductive RunState where
  | Stopped (r : StopReason)
  | Running (ctx : String)
deriving Repr, DecidableEq

/-- Rust `Symbol` from `metadata.rs`. -/
structure Symbol where
  name : String
  address : Option String
  line : Option Int
  type_ : Option String
  description : Option String
deriving Repr, DecidableEq

/-- Rust `SymbolTable` from `metadata.rs`. -/
structure SymbolTable where
  symbols_per_file : List (String × List Symbol)
deriving Repr, DecidableEq

/-- Rust `GdbMachineResponse` from `protocol.rs`. -/
inductive GdbMachineResponse where
  | Error (msg : String)
  | Ok
  | State (st : List (Nat × RunState))
  | Snapshot (sn : CompMap)
  | Symbols (st : SymbolTable)
  | Pivot (id : Nat) (url : List Char)
  | Count (n : Nat)
deriving Repr, DecidableEq

/-- Rust `TreeState::all_resp_ok`: collect the `Error` payloads of the child
responses; if any, surface one combined error joining them with `","`. -/
def all_resp_ok (resps : List GdbMachineResponse) : Except String Unit :=
  let errs := resps.filterMap (fun v =>
    match v with
    | GdbMachineResponse.Error e => some e
    | _ => none)
  if !errs.isEmpty then Except.error (String.intercalate "," errs)
  else Except.ok ()

/-! Each tree-level debugger operation is a function of the list of
children responses (one response per child, so `children.is_empty()`
is `resps.isEmpty`); the part of the source before `run_on_children`
delivers those responses is transport, outside the embedding. -/

/-- Rust `TreeState::start`. -/
def tree_start (resps : List GdbMachineResponse) : Except String Unit :=
  if resps.isEmpty then Except.ok () else all_resp_ok resps

/-- Rust `TreeState::stop`. -/
def tree_stop (resps : List GdbMachineResponse) : Except String Unit :=
  if resps.isEmpty then Except.ok () else all_resp_ok resps

/-- Rust `TreeState::cont`. -/
def tree_cont (resps : List GdbMachineResponse) : Except String Unit :=
  if resps.isEmpty then Except.ok () else all_resp_ok resps

/-- Rust `TreeState::count`: sums the `Count` payloads; note the source never
calls `all_resp_ok` here, so `Error` responses are silently dropped. -/
def tree_count (resps : List GdbMachineResponse) : Except String Nat :=
  if resps.isEmpty then Except.ok 0
  else
    Except.ok ((resps.filterMap (fun v =>
      match v with
      | GdbMachineResponse.Count c => some c
      | _ => none)).sum)

/-- Rust `TreeState::state`: after `all_resp_ok`, `extend` the result map with
every `State` payload. -/
def tree_state (resps : List GdbMachineResponse) :
    Except String (List (Nat × RunState)) :=
  if resps.isEmpty then Except.ok []
  else
    match all_resp_ok resps with
    | Except.error e => Except.error e
    | Except.ok () =>
      Except.ok (resps.foldl
        (fun ret r =>
          match r with
          | GdbMachineResponse.State st =>
            st.foldl (fun m kv => listInsertReplace m kv.1 kv.2) ret
          | _ => ret)
        [])

/-- Rust `TreeState::snapshot`: after `all_resp_ok`, merge the `Snapshot`
payloads with `components_merge`. -/
def tree_snapshot (resps : List GdbMachineResponse) : Except String CompMap :=
  if resps.isEmpty then Except.ok []
  else
    match all_resp_ok resps with
    | Except.error e => Except.error e
    | Except.ok () =>
      Except.ok (components_merge (resps.filterMap (fun v =>
        match v with
        | GdbMachineResponse.Snapshot st => some st
        | _ => none)))

/-! ## The MI driver's `symbols` precondition (`gdbmi.rs`, `debugger.rs`) -/

/-- The state of `GdbMiState` relevant to the `symbols` precondition. -/
structure GdbMiStateModel where
  runstate : Option RunState
deriving Repr, DecidableEq

/-- The state of `GdbMi` relevant to the `symbols` precondition: its id and
the optional `Arc<Mutex<GdbMiState>>`. -/
structure GdbMiModel where
  id : Nat
  state : Option GdbMiStateModel
deriving Repr, DecidableEq

namespace GdbMiModel

/-- Rust `GdbMi::state()`: a one-entry map `{get_id() ↦ runstate}` when the MI
state exists and a run state has been observed, else empty. -/
def stateMap (m : GdbMiModel) : List (Nat × RunState) :=
  match m.state with
  | some s =>
    match s.runstate with
    | some rs => [(m.id, rs)]
    | none => []
  | none => []

/-- Rust `Debugger::id_is_running` (trait default in `debugger.rs`). -/
def id_is_running (m : GdbMiModel) (id : Nat) : Bool :=
  match listLookup m.stateMap id with
  | some (RunState.Running _) => true
  | _ => false

/-- Rust `Debugger::id_is_stopped` (trait default in `debugger.rs`). -/
def id_is_stopped (m : GdbMiModel) (id : Nat) : Bool :=
  match listLookup m.stateMap id with
  | some (RunState.Stopped _) => true
  | _ => false

/-- Rust `GdbMi::symbols`, up to the decision to retrieve: error when
`id_is_running`, error when no MI state exists, otherwise delegate to
`GdbMiState::symbols` (the retrieval itself is subprocess I/O, represented
by `Except.ok ()`). -/
def symbols (m : GdbMiModel) : Except String Unit :=
  if m.id_is_running m.id then
    Except.error "Symbols can only be retrieved on a stopped target"
  else
    match m.state with
    | some _ => Except.ok ()
    | none => Except.error "No GDB state was available to retrieve symbols"

end GdbMiModel

/-! ## The seen-children registry and `pivot` (`lib.rs::TreeState`) -/

/-- The seen-children registry: locality descriptor ↦ (URL, ID factory).
A `HashMap` in the source; the list keeps insertion order, standing for
one iteration order (all runs below have order-independent outcomes). -/
abbrev Registry := List (List Char × (List Char × TreeIdFactory))

/-- The distinguished `"ROOT"` key. -/
def rootKey : List Char := "ROOT".toList

/-- Rust `TreeState::set_root`. -/
def set_root (reg : Registry) (root_url : List Char) : Registry :=
  listInsertReplace reg rootKey (root_url, TreeIdFactory.default)

/-- The closest-match loop of `_pivot_get_closest_id_match`: over the
non-full entries, keep the key with the strictly smallest
`strdistance(key, locator)` (first seen wins ties), starting from
`distance = u64::MAX`. -/
def closestKey (reg : Registry) (locator : List Char) : Option (List Char) :=
  (reg.filter (fun e => !e.2.2.full)).foldl
    (fun acc e =>
      let dist := strdistance e.1 locator
      if dist < acc.2 then (some e.1, dist) else acc)
    ((none : Option (List Char)), U64 - 1)
  |>.1

/-- Rust `TreeState::_pivot_get_closest_id_match`: duplicate check, then ROOT
if not full, then closest non-full match.  Returns the attacher URL and
the inherited child factory, together with the updated registry (the
parent factory's `offset` advanced).  Source panics (`expect`,
`unimplemented!`, `unreachable!`) are modelled as errors marked
`"panic:"`. -/
def pivot_get_closest_id_match (reg : Registry) (locator : List Char) :
    Except String (List Char × TreeIdFactory) × Registry :=
  if (listLookup reg locator).isSome then
    (Except.error "Process is already registered", reg)
  else
    match listLookup reg rootKey with
    | none => (Except.error "panic: It is only possible to pivot on root process", reg)
    | some (url, root) =>
      if !root.full then
        match root.inherit with
        | (Except.ok child, root') =>
          (Except.ok (url, child), listInsertReplace reg rootKey (url, root'))
        | (Except.error e, _) => (Except.error e, reg)
      else
        match closestKey reg locator with
        | some m =>
          if m = rootKey then
            (Except.error "panic: Distance match should not capture root", reg)
          else
            match listLookup reg m with
            | some (murl, mf) =>
              match mf.inherit with
              | (Except.ok child, mf') =>
                (Except.ok (murl, child), listInsertReplace reg m (murl, mf'))
              | (Except.error e, _) => (Except.error e, reg)
            | none => (Except.error "panic: Key must exist", reg)
        | none =>
          (Except.error "panic: Root should have had at least another child", reg)

/-- Rust `TreeState::pivot`: derive the new range, then register the locator
with the supplied `from` URL and the inherited factory.  Returns the new
id and the attacher URL, plus the updated registry. -/
def pivot (reg : Registry) (locator from_url : List Char) :
    Except String (Nat × List Char) × Registry :=
  match pivot_get_closest_id_match reg locator with
  | (Except.error e, reg') => (Except.error e, reg')
  | (Except.ok (url, new_range), reg') =>
    (Except.ok (new_range.id, url),
     listInsertReplace reg' locator (from_url, new_range))

/-- Whether an `Except` is `ok`. -/
def exceptOk {ε α : Type} : Except ε α → Bool
  | Except.ok _ => true
  | Except.error _ => false

/-- Run a sequence of `pivot` calls (all with the same dummy `from` URL),
tracking whether every call succeeded. -/
def pivotSeq (reg : Registry) (locs : List (List Char)) : Registry × Bool :=
  locs.foldl
    (fun acc loc =>
      let step := pivot acc.1 loc "u".toList
      (step.2, acc.2 && exceptOk step.1))
    (reg, true)

/-! ## Auxiliary definitions used only to state the claims -/

/-- Modelled from the spec's words (§4.5, local component generation):
the thread's frames mapped in order to `Frame` elements, with one `State`
element carrying the stop reason's `reason`, `signal_name` and `exit_code`
prepended iff the stop reason exists and its signal name is not
`"SIGINT"`. -/
def specThreadElems (stop : Option StopReason) (frames : List DebugFrame) :
    List BacktraceState :=
  match stop with
  | some r =>
    if r.signal_name = some "SIGINT" then frames.map BacktraceState.ofFrame
    else BacktraceState.ofStop r :: frames.map BacktraceState.ofFrame
  | none => frames.map BacktraceState.ofFrame

/-- Whether a backtrace element is a `State` element. -/
def isStateElem : BacktraceState → Bool
  | BacktraceState.State _ => true
  | BacktraceState.Frame _ => false

/-- The `Error` payloads of a response list (as in `all_resp_ok`). -/
def errPayloads (resps : List GdbMachineResponse) : List String :=
  resps.filterMap (fun v =>
    match v with
    | GdbMachineResponse.Error e => some e
    | _ => none)

/-- The `Count` payloads of a response list (as in `TreeState::count`). -/
def countPayloads (resps : List GdbMachineResponse) : List Nat :=
  resps.filterMap (fun v =>
    match v with
    | GdbMachineResponse.Count c => some c
    | _ => none)

/-- The `Snapshot` payloads of a response list (as in `TreeState::snapshot`). -/
def snapshotPayloads (resps : List GdbMachineResponse) : List CompMap :=
  resps.filterMap (fun v =>
    match v with
    | GdbMachineResponse.Snapshot st => some st
    | _ => none)

/-- The union of the `State` payloads (as in `TreeState::state`). -/
def stateUnion (resps : List GdbMachineResponse) : List (Nat × RunState) :=
  resps.foldl
    (fun ret r =>
      match r with
      | GdbMachineResponse.State st =>
        st.foldl (fun m kv => listInsertReplace m kv.1 kv.2) ret
      | _ => ret)
    []

/-- The first ID `inherit()` would allocate from a factory. -/
def firstInheritedId (f : TreeIdFactory) : Option Nat :=
  match f.inherit with
  | (Except.ok c, _) => some c.root_id
  | (Except.error _, _) => none

/-- A 38-step pivot sequence: 24 distinct single-char locators saturate
ROOT, then a chain of locators `"zz"`, `"zzz"`, …, 13 × `'z'` each attaches
(unique closest match) under the previous one, reaching a factory whose
`stride` is 0, and finally two locators (14 × `'z'` and 12 × `'z'` + `'y'`)
both attach (unique closest match) under that zero-stride factory. -/
def zeroStrideLocs : List (List Char) :=
  (List.range 24).map (fun i => [Char.ofNat (97 + i)]) ++
  (List.range 12).map (fun i => List.replicate (i + 2) 'z') ++
  [List.replicate 14 'z', List.replicate 12 'z' ++ ['y']]

/-- The registry and success flag after running `zeroStrideLocs` from a
freshly rooted registry. -/
def zeroStrideRun : Registry × Bool :=
  pivotSeq (set_root [] "R".toList) zeroStrideLocs

/-! ## Helper lemmas -/

theorem countOf_compInsertAdd (m : CompMap) (h cnt : Nat) (l : List BacktraceState)
    (x : Nat) :
    countOf (compInsertAdd m h cnt l) x = countOf m x + (if h = x then cnt else 0) := by
  induction m with
  | nil => simp [compInsertAdd, countOf]
  | cons e rest ih =>
    obtain ⟨k, c0, l0⟩ := e
    by_cases hk : k = h
    · subst hk
      simp only [compInsertAdd, if_pos rfl, countOf]
      by_cases hx : k = x
      · subst hx; simp [countOf]; ring
      · simp [countOf, hx]
    · simp only [compInsertAdd, if_neg hk, countOf, ih]
      ring

theorem countOf_mergeInto (f m : CompMap) (x : Nat) :
    countOf (mergeInto f m) x = countOf f x + countOf m x := by
  induction m generalizing f with
  | nil => simp [mergeInto, countOf]
  | cons e rest ih =>
    obtain ⟨k, c, l⟩ := e
    simp only [mergeInto, List.foldl_cons] at *
    rw [ih, countOf_compInsertAdd]
    simp only [countOf]
    by_cases hk : k = x
    · simp [hk]; ring
    · simp [hk]

theorem countOf_foldl_mergeInto (maps : List CompMap) (acc : CompMap) (x : Nat) :
    countOf (maps.foldl mergeInto acc) x =
      countOf acc x + (maps.map (fun m => countOf m x)).sum := by
  induction maps generalizing acc with
  | nil => simp
  | cons m rest ih =>
    simp only [List.foldl_cons, List.map_cons, List.sum_cons]
    rw [ih, countOf_mergeInto]
    ring

/-- Core additivity of `components_merge`: the count assigned to any hash is
the sum of the counts the operand maps assign to it. -/
theorem countOf_components_merge (maps : List CompMap) (x : Nat) :
    countOf (components_merge maps) x = (maps.map (fun m => countOf m x)).sum := by
  unfold components_merge
  match h : maps.getLast? with
  | none =>
    have : maps = [] := List.getLast?_eq_none_iff.mp h
    subst this; simp [countOf]
  | some first =>
    have hne : maps ≠ [] := by
      intro hmaps; subst hmaps; simp at h
    rw [countOf_foldl_mergeInto]
    have hsplit : maps = maps.dropLast ++ [first] := by
      conv_lhs => rw [← List.dropLast_append_getLast hne]
      rw [List.getLast?_eq_getLast maps hne] at h
      simp at h
      rw [h]
    conv_rhs => rw [hsplit]
    simp [Nat.add_comm]

theorem length_le_byteLen (l : List Char) : l.length ≤ byteLen l := by
  induction l with
  | nil => simp [byteLen]
  | cons c rest ih =>
    simp only [byteLen, List.map_cons, List.sum_cons, List.length_cons] at *
    have := Char.utf8Size_pos c
    omega

theorem charCodeAt_eq_zero {l : List Char} {i : Nat} (h : l.length ≤ i) :
    charCodeAt l i = 0 := by
  unfold charCodeAt
  rw [List.get?_eq_none.mpr h]

/-- Padding terms beyond both char lengths vanish, so the distance sum is
insensitive to extending the loop bound past `max |a| |b|` (in chars). -/
theorem dist_sum_pad (a b : List Char) (k : Nat) :
    ((List.range (max a.length b.length + k)).map
      (fun i => Nat.dist (charCodeAt a i) (charCodeAt b i))).sum =
    ((List.range (max a.length b.length)).map
      (fun i => Nat.dist (charCodeAt a i) (charCodeAt b i))).sum := by
  induction k with
  | zero => rfl
  | succ k ih =>
    have hrange : max a.length b.length + (k + 1) = (max a.length b.length + k) + 1 := rfl
    rw [hrange, List.range_succ, List.map_append, List.sum_append]
    have ha : charCodeAt a (max a.length b.length + k) = 0 :=
      charCodeAt_eq_zero (by omega)
    have hb : charCodeAt b (max a.length b.length + k) = 0 :=
      charCodeAt_eq_zero (by omega)
    simp [ha, hb, ih]

/-- Rust `strdistance` computes exactly the spec's metric: bounding the
loop by the max byte length instead of the max char length only adds
`|0 − 0|` padding terms. -/
theorem strdistance_eq_spec (a b : List Char) :
    strdistance a b = specStrDistance a b := by
  unfold strdistance specStrDistance
  have h1 : max a.length b.length ≤ max (byteLen a) (byteLen b) :=
    max_le_max (length_le_byteLen a) (length_le_byteLen b)
  obtain ⟨k, hk⟩ : ∃ k, max (byteLen a) (byteLen b) = max a.length b.length + k :=
    ⟨_, (Nat.add_sub_cancel' h1).symm⟩
  rw [hk, dist_sum_pad]

/-- Behaviour of `n ≤ ARITY` chained `inherit()` calls, for an arbitrary
starting offset with room for `n` more children. -/
theorem inheritN_spec (n : Nat) : ∀ F : TreeIdFactory, F.offset + n ≤ TREE_ARITY →
    (inheritN F n).1 = { F with offset := F.offset + n } ∧
    ∀ i, i < n → (inheritN F n).2.get? i =
      some { root_id := (F.root_id + 1 + F.stride * (F.offset + i)) % U64,
             dynamic := childDynamic F,
             stride := childDynamic F / TREE_ARITY,
             offset := 0 } := by
  induction n with
  | zero =>
    intro F _
    refine ⟨rfl, ?_⟩
    intro i hi
    exact absurd hi (Nat.not_lt_zero i)
  | succ n ih =>
    intro F hF
    have hoff : F.offset + 1 < U64 := by
      have : TREE_ARITY < U64 := by decide
      omega
    have hstep : F.inherit =
        (Except.ok { root_id := (F.root_id + 1 + F.stride * F.offset) % U64,
                     dynamic := childDynamic F,
                     stride := childDynamic F / TREE_ARITY,
                     offset := 0 },
         { F with offset := F.offset + 1 }) := by
      unfold TreeIdFactory.inherit childDynamic
      rw [Nat.add_mod_mod, Nat.mod_eq_of_lt hoff]
    have hF' : ({ F with offset := F.offset + 1 } : TreeIdFactory).offset + n ≤
        TREE_ARITY := by
      simp only []
      omega
    obtain ⟨ihp, ihc⟩ := ih { F with offset := F.offset + 1 } hF'
    have hunfold : inheritN F (n + 1) =
        ({ F with offset := F.offset + 1 + n },
         { root_id := (F.root_id + 1 + F.stride * F.offset) % U64,
           dynamic := childDynamic F,
           stride := childDynamic F / TREE_ARITY,
           offset := 0 } :: (inheritN { F with offset := F.offset + 1 } n).2) := by
      show (match F.inherit with
            | (Except.ok c, f') =>
              let p := inheritN f' n
              (p.1, c :: p.2)
            | (Except.error _, f') => (f', [])) = _
      rw [hstep]
      simp only []
      rw [ihp]
    constructor
    · rw [hunfold]
      have : F.offset + 1 + n = F.offset + (n + 1) := by omega
      rw [this]
    · intro i hi
      rw [hunfold]
      match i with
      | 0 =>
        simp only [List.get?_cons_zero, Nat.add_zero]
      | Nat.succ j =>
        simp only [List.get?_cons_succ]
        have := ihc j (by omega)
        rw [this]
        have : F.offset + 1 + j = F.offset + (j + 1) := by omega
        simp only []
        rw [this]
        rfl

/-! ## The claims -/

/-- C1: after `n ≤ ARITY (= 24)` successful `inherit()` calls from a factory
`F` (at its initial offset 0), `F.offset = n`, and the `i`-th call returned
a child factory with `root_id = F.root_id + 1 + F.stride * i` (in `u64`
arithmetic), `dynamic = (F.dynamic - 1) / 24`, `stride = dynamic / 24` and
`offset = 0`; in particular, from the default root factory the first four
inherited IDs are `1, 1 + s, 1 + 2s, 1 + 3s` with `s = (u64::MAX - 1) / 24`. -/
theorem claim_C1 (F : TreeIdFactory) (n : Nat) (h0 : F.offset = 0)
    (hn : n ≤ TREE_ARITY) :
    (inheritN F n).1.offset = n ∧
    (∀ i, i < n → (inheritN F n).2.get? i =
      some { root_id := (F.root_id + 1 + F.stride * i) % U64,
             dynamic := childDynamic F,
             stride := childDynamic F / TREE_ARITY,
             offset := 0 }) ∧
    (inheritN TreeIdFactory.default 4).2.map (fun c => c.root_id) =
      [1, 1 + (U64 - 2) / TREE_ARITY, 1 + 2 * ((U64 - 2) / TREE_ARITY),
       1 + 3 * ((U64 - 2) / TREE_ARITY)] := by
  obtain ⟨hp, hc⟩ := inheritN_spec n F (by omega)
  refine ⟨?_, ?_, ?_⟩
  · rw [hp]
    simp [h0]
  · intro i hi
    rw [hc i hi, h0]
    simp
  · decide

/-- Witness for C1 at the default factory and `n = 4`. -/
theorem claim_C1_witness :
    TreeIdFactory.default.offset = 0 ∧ 4 ≤ TREE_ARITY ∧
    (inheritN TreeIdFactory.default 4).1.offset = 4 ∧
    (inheritN TreeIdFactory.default 4).2.get? 2 =
      some { root_id :=
               (TreeIdFactory.default.root_id + 1 +
                 TreeIdFactory.default.stride * 2) % U64,
             dynamic := childDynamic TreeIdFactory.default,
             stride := childDynamic TreeIdFactory.default / TREE_ARITY,
             offset := 0 } := by
  have h := claim_C1 TreeIdFactory.default 4 rfl (by decide)
  exact ⟨rfl, by decide, h.1, h.2.1 2 (by decide)⟩

/-- Counterexample to C2 as stated: on a *full* factory
(`offset = ARITY = 24`) `inherit()` still returns `Ok` — the source never
returns an error, so "error iff full" fails in the "full ⇒ error"
direction. -/
theorem claim_C2_counterexample :
    (TreeIdFactory.mk 0 (U64 - 1) ((U64 - 2) / TREE_ARITY) TREE_ARITY).full = true ∧
    exceptOk
      (TreeIdFactory.mk 0 (U64 - 1) ((U64 - 2) / TREE_ARITY) TREE_ARITY).inherit.1 =
      true := by
  decide

/-- C2 as amended: `inherit()` never returns an error (even on a full
factory); each call advances `offset` by one (wrapping), without any cap,
so `offset ≤ ARITY` is maintained only by callers checking
`full() ⇔ offset == ARITY` before inheriting. -/
theorem claim_C2_amended (F : TreeIdFactory) :
    exceptOk F.inherit.1 = true ∧
    F.inherit.2.offset = (F.offset + 1) % U64 ∧
    (F.full = true ↔ F.offset = TREE_ARITY) := by
  refine ⟨rfl, rfl, ?_⟩
  unfold TreeIdFactory.full
  simp

theorem is_sigint_iff (r : StopReason) :
    r.is_sigint = true ↔ r.signal_name = some "SIGINT" := by
  unfold StopReason.is_sigint
  cases h : r.signal_name with
  | none => simp
  | some sig => simp

theorem threadComponent_eq_spec (stop : Option StopReason)
    (frames : List DebugFrame) :
    threadComponent stop frames = specThreadElems stop frames := by
  cases stop with
  | none => rfl
  | some r =>
    by_cases h : r.signal_name = some "SIGINT"
    · have hs : r.is_sigint = true := (is_sigint_iff r).mpr h
      simp only [threadComponent, specThreadElems, hs, if_pos h]
      rfl
    · have hs : r.is_sigint = false := by
        rw [← Bool.not_eq_true]
        intro hb
        exact h ((is_sigint_iff r).mp hb)
      simp only [threadComponent, specThreadElems, hs, if_neg h]
      rfl

theorem compInsertAdd_mem {P : List BacktraceState → Prop} :
    ∀ {m : CompMap} {h cnt : Nat} {l : List BacktraceState},
      (∀ e ∈ m, P e.2.2) → P l → ∀ e ∈ compInsertAdd m h cnt l, P e.2.2 := by
  intro m
  induction m with
  | nil =>
    intro h cnt l _ hl e he
    simp [compInsertAdd] at he
    subst he
    exact hl
  | cons e0 rest ih =>
    intro h cnt l hm hl e he
    obtain ⟨k, c0, l0⟩ := e0
    by_cases hk : k = h
    · rw [compInsertAdd, if_pos hk] at he
      rcases List.mem_cons.mp he with h1 | h1
      · rw [h1]
        exact hm (k, c0, l0) (List.mem_cons_self _ _)
      · exact hm e (List.mem_cons_of_mem _ h1)
    · rw [compInsertAdd, if_neg hk] at he
      rcases List.mem_cons.mp he with h1 | h1
      · rw [h1]
        exact hm (k, c0, l0) (List.mem_cons_self _ _)
      · exact ih (fun x hx => hm x (List.mem_cons_of_mem _ hx)) hl e h1

theorem generate_inner_mem {P : List BacktraceState → Prop}
    (hashFn : List BacktraceState → Nat) (stop : Option StopReason) :
    ∀ (ths : List (Nat × List DebugFrame)) (acc : CompMap),
      (∀ e ∈ acc, P e.2.2) →
      (∀ t ∈ ths, P (threadComponent stop t.2)) →
      ∀ e ∈ ths.foldl
          (fun components thEntry =>
            let comp := threadComponent stop thEntry.2
            compInsertAdd components (hashFn comp) 1 comp)
          acc,
        P e.2.2 := by
  intro ths
  induction ths with
  | nil =>
    intro acc hacc _ e he
    exact hacc e he
  | cons t rest ih =>
    intro acc hacc hths e he
    rw [List.foldl_cons] at he
    exact ih _
      (compInsertAdd_mem hacc (hths t (List.mem_cons_self _ _)))
      (fun x hx => hths x (List.mem_cons_of_mem _ hx)) e he

theorem generate_outer_mem {P : List BacktraceState → Prop}
    (hashFn : List BacktraceState → Nat) :
    ∀ (ds : List (Nat × ProgramSnapshot)) (acc : CompMap),
      (∀ e ∈ acc, P e.2.2) →
      (∀ p ∈ ds, ∀ t ∈ p.2.state, P (threadComponent p.2.stop_state t.2)) →
      ∀ e ∈ ds.foldl
          (fun components snapEntry =>
            snapEntry.2.state.foldl
              (fun components thEntry =>
                let comp := threadComponent snapEntry.2.stop_state thEntry.2
                compInsertAdd components (hashFn comp) 1 comp)
              components)
          acc,
        P e.2.2 := by
  intro ds
  induction ds with
  | nil =>
    intro acc hacc _ e he
    exact hacc e he
  | cons p rest ih =>
    intro acc hacc hds e he
    rw [List.foldl_cons] at he
    exact ih _
      (generate_inner_mem hashFn p.2.stop_state p.2.state acc hacc
        (hds p (List.mem_cons_self _ _)))
      (fun x hx => hds x (List.mem_cons_of_mem _ hx)) e he

/-- C3: within `generate_components`, every stored backtrace-element list
is the per-thread list of some input thread, and that per-thread list is
exactly the spec's description: the frames mapped in order to `Frame`
elements, with exactly one `State` element (from the stop reason)
prepended iff the stop reason exists and is not SIGINT. -/
theorem claim_C3 (hashFn : List BacktraceState → Nat)
    (dist_state : List (Nat × ProgramSnapshot)) :
    (∀ stop frames, threadComponent stop frames = specThreadElems stop frames) ∧
    (∀ stop frames,
      (threadComponent stop frames).countP isStateElem =
        match stop with
        | some r => if r.signal_name = some "SIGINT" then 0 else 1
        | none => 0) ∧
    (∀ e ∈ generate_components hashFn dist_state,
      ∃ p, p ∈ dist_state ∧ ∃ t, t ∈ p.2.state ∧
        e.2.2 = threadComponent p.2.stop_state t.2) := by
  have hcount : ∀ (frames : List DebugFrame),
      (frames.map BacktraceState.ofFrame).countP isStateElem = 0 := by
    intro frames
    rw [List.countP_eq_zero]
    intro a ha
    obtain ⟨f, _, hf⟩ := List.mem_map.mp ha
    rw [← hf]
    simp [BacktraceState.ofFrame, isStateElem]
  refine ⟨threadComponent_eq_spec, ?_, ?_⟩
  · intro stop frames
    rw [threadComponent_eq_spec]
    cases stop with
    | none =>
      simpa [specThreadElems] using hcount frames
    | some r =>
      by_cases h : r.signal_name = some "SIGINT"
      · simpa [specThreadElems, if_pos h] using hcount frames
      · simp only [specThreadElems, if_neg h, List.countP_cons]
        rw [hcount frames]
        simp [BacktraceState.ofStop, isStateElem]
  · intro e he
    exact generate_outer_mem
      (P := fun l => ∃ p, p ∈ dist_state ∧ ∃ t, t ∈ p.2.state ∧
        l = threadComponent p.2.stop_state t.2)
      hashFn dist_state []
      (by intro x hx; exact absurd hx (List.not_mem_nil x))
      (fun p hp t ht => ⟨p, hp, t, ht, rfl⟩) e he

/-- A sample stop reason (a SIGSEGV stop) used by concrete witnesses. -/
def sampleStop : StopReason :=
  { reason := "signal-received", disp := none, breakpoint_num := none,
    addr := none, function := none, meaning := none,
    signal_name := some "SIGSEGV", file := none, fullname := none,
    line := none, arch := none, thread_id := none, stopped_threads := none,
    core := none, exit_code := none }

/-- A sample debug frame used by concrete witnesses. -/
def sampleFrame : DebugFrame :=
  { level := 0, addr := "0x1", func := "main", file := some "a.c",
    fullname := some "/src/a.c", line := some 3, from_ := none,
    arch := none, args := none, locals := none }

/-- A sample one-snapshot input for `generate_components`. -/
def sampleDist : List (Nat × ProgramSnapshot) :=
  [(0, { state := [(0, [sampleFrame])], stop_state := some sampleStop })]

/-- Witness for C3, at a concrete SIGSEGV snapshot. -/
theorem claim_C3_witness :
    ∃ e, e ∈ generate_components (fun _ => 0) sampleDist ∧
      ∃ p, p ∈ sampleDist ∧ ∃ t, t ∈ p.2.state ∧
        e.2.2 = threadComponent p.2.stop_state t.2 := by
  have h := claim_C3 (fun _ => 0) sampleDist
  refine ⟨(0, 1, threadComponent (some sampleStop) [sampleFrame]), ?_, ?_⟩
  · decide
  · exact h.2.2 _ (by decide)

/-- C4: merging component maps is commutative and associative when viewed
through the count each hash receives: all three bracketings assign every
hash the sum of the counts the three operands assign it. -/
theorem claim_C4 (A B C : CompMap) (x : Nat) :
    countOf (components_merge [components_merge [A, B], C]) x =
      countOf A x + countOf B x + countOf C x ∧
    countOf (components_merge [A, components_merge [B, C]]) x =
      countOf A x + countOf B x + countOf C x ∧
    countOf (components_merge [components_merge [C, A], B]) x =
      countOf A x + countOf B x + countOf C x := by
  refine ⟨?_, ?_, ?_⟩ <;> simp [countOf_components_merge] <;> ring

theorem errPayloads_mem {resps : List GdbMachineResponse} {e : String}
    (h : GdbMachineResponse.Error e ∈ resps) : e ∈ errPayloads resps :=
  List.mem_filterMap.mpr ⟨GdbMachineResponse.Error e, h, rfl⟩

theorem all_resp_ok_of_error {resps : List GdbMachineResponse}
    (h : ∃ e, GdbMachineResponse.Error e ∈ resps) :
    all_resp_ok resps =
      Except.error (String.intercalate "," (errPayloads resps)) := by
  obtain ⟨e, he⟩ := h
  have hmem : e ∈ errPayloads resps := errPayloads_mem he
  show (if !(errPayloads resps).isEmpty then
          Except.error (String.intercalate "," (errPayloads resps))
        else Except.ok ()) = _
  cases hl : errPayloads resps with
  | nil =>
    rw [hl] at hmem
    exact absurd hmem (List.not_mem_nil e)
  | cons a rest => rfl

theorem all_resp_ok_of_no_error {resps : List GdbMachineResponse}
    (h : ∀ e, GdbMachineResponse.Error e ∉ resps) :
    all_resp_ok resps = Except.ok () := by
  have hl : errPayloads resps = [] := by
    unfold errPayloads
    rw [List.filterMap_eq_nil_iff]
    intro a ha
    cases a with
    | Error e => exact absurd ha (h e)
    | Ok => rfl
    | State st => rfl
    | Snapshot sn => rfl
    | Symbols st => rfl
    | Pivot i u => rfl
    | Count n => rfl
  show (if !(errPayloads resps).isEmpty then
          Except.error (String.intercalate "," (errPayloads resps))
        else Except.ok ()) = _
  rw [hl]
  rfl

/-- C5 as amended: for `start`/`stop`/`cont`/`state`/`snapshot` on a tree
node with children, an `Error` among the children responses is surfaced as
one combined error joining all error payloads, and otherwise the non-error
responses are merged; `count`, however, never checks for errors — it sums
the `Count` payloads and ignores `Error` responses. -/
theorem claim_C5_amended (resps : List GdbMachineResponse) (hne : resps ≠ []) :
    ((∃ e, GdbMachineResponse.Error e ∈ resps) →
      tree_start resps =
        Except.error (String.intercalate "," (errPayloads resps)) ∧
      tree_stop resps =
        Except.error (String.intercalate "," (errPayloads resps)) ∧
      tree_cont resps =
        Except.error (String.intercalate "," (errPayloads resps)) ∧
      tree_state resps =
        Except.error (String.intercalate "," (errPayloads resps)) ∧
      tree_snapshot resps =
        Except.error (String.intercalate "," (errPayloads resps)) ∧
      tree_count resps = Except.ok (countPayloads resps).sum) ∧
    ((∀ e, GdbMachineResponse.Error e ∉ resps) →
      tree_start resps = Except.ok () ∧
      tree_stop resps = Except.ok () ∧
      tree_cont resps = Except.ok () ∧
      tree_state resps = Except.ok (stateUnion resps) ∧
      tree_snapshot resps =
        Except.ok (components_merge (snapshotPayloads resps)) ∧
      tree_count resps = Except.ok (countPayloads resps).sum) := by
  have hemp : resps.isEmpty = false := by
    cases resps with
    | nil => exact absurd rfl hne
    | cons a rest => rfl
  constructor
  · intro h
    have hart := all_resp_ok_of_error h
    refine ⟨?_, ?_, ?_, ?_, ?_, ?_⟩
    · unfold tree_start; rw [hemp]; simpa using hart
    · unfold tree_stop; rw [hemp]; simpa using hart
    · unfold tree_cont; rw [hemp]; simpa using hart
    · unfold tree_state; rw [hemp]; simp only [Bool.false_eq_true, if_false]
      rw [hart]
    · unfold tree_snapshot; rw [hemp]; simp only [Bool.false_eq_true, if_false]
      rw [hart]
    · unfold tree_count; rw [hemp]; rfl
  · intro h
    have hart := all_resp_ok_of_no_error h
    refine ⟨?_, ?_, ?_, ?_, ?_, ?_⟩
    · unfold tree_start; rw [hemp]; simpa using hart
    · unfold tree_stop; rw [hemp]; simpa using hart
    · unfold tree_cont; rw [hemp]; simpa using hart
    · unfold tree_state; rw [hemp]; simp only [Bool.false_eq_true, if_false]
      rw [hart]
      rfl
    · unfold tree_snapshot; rw [hemp]; simp only [Bool.false_eq_true, if_false]
      rw [hart]
      rfl
    · unfold tree_count; rw [hemp]; rfl

/-- A sample children-response list with one error. -/
def sampleResps : List GdbMachineResponse :=
  [GdbMachineResponse.Ok, GdbMachineResponse.Error "x", GdbMachineResponse.Count 3]

/-- Witness for C5 (amended): one erroring child makes `stop` fail with the
joined payload while `count` still returns the sum. -/
theorem claim_C5_amended_witness :
    tree_stop sampleResps =
      Except.error (String.intercalate "," (errPayloads sampleResps)) ∧
    tree_count sampleResps = Except.ok (countPayloads sampleResps).sum := by
  have h := (claim_C5_amended sampleResps (by decide)).1 ⟨"x", by decide⟩
  exact ⟨h.2.1, h.2.2.2.2.2⟩

/-- Counterexample to C5 as stated: `count` on a single erroring child does
not surface an error — it returns `Ok 0`. -/
theorem claim_C5_counterexample :
    tree_count [GdbMachineResponse.Error "boom"] = Except.ok 0 ∧
    ∀ e, tree_count [GdbMachineResponse.Error "boom"] ≠ Except.error e := by
  constructor
  · rfl
  · intro e h
    have h0 : tree_count [GdbMachineResponse.Error "boom"] = Except.ok 0 := rfl
    rw [h0] at h
    exact Except.noConfusion h

set_option maxRecDepth 10000

/-- C6, evaluated at the failing input: after the 38 successful pivots of
`zeroStrideLocs`, the registry holds two *distinct* keys (14 × `'z'` and
12 × `'z'` + `'y'`) whose factories would both allocate the same first ID
`17678129737304986965` — the zero-stride collision the spec's design notes
warn about, silently violating range disjointness. -/
theorem claim_C6_collision :
    zeroStrideRun.2 = true ∧
    (listLookup zeroStrideRun.1 (List.replicate 14 'z')).map
        (fun p => firstInheritedId p.2) = some (some 17678129737304986965) ∧
    (listLookup zeroStrideRun.1 (List.replicate 12 'z' ++ ['y'])).map
        (fun p => firstInheritedId p.2) = some (some 17678129737304986965) ∧
    List.replicate 14 'z' ≠ List.replicate 12 'z' ++ ['y'] := by
  decide

/-- Counterexample to C7 as stated: an MI driver whose run state has not
been observed yet (`runstate = None`) is not in a stopped state, yet
`symbols` proceeds to retrieve the symbol table instead of erroring. -/
theorem claim_C7_counterexample :
    (GdbMiModel.mk 0 (some (GdbMiStateModel.mk none))).id_is_stopped 0 = false ∧
    (GdbMiModel.mk 0 (some (GdbMiStateModel.mk none))).id_is_running 0 = false ∧
    GdbMiModel.symbols (GdbMiModel.mk 0 (some (GdbMiStateModel.mk none))) =
      Except.ok () := by
  refine ⟨rfl, rfl, rfl⟩

/-- C7 as amended: `symbols` errors exactly when the target is *running*
(or when no MI state exists at all); on a stopped target it proceeds to
retrieve the symbol table — but when a run state was never observed it
also proceeds. -/
theorem claim_C7_amended (m : GdbMiModel) :
    (m.id_is_running m.id = true →
      m.symbols = Except.error "Symbols can only be retrieved on a stopped target") ∧
    (m.id_is_stopped m.id = true → m.symbols = Except.ok ()) := by
  constructor
  · intro h
    unfold GdbMiModel.symbols
    rw [if_pos h]
  · intro h
    cases hs : m.state with
    | none =>
      simp only [GdbMiModel.id_is_stopped, GdbMiModel.stateMap, hs, listLookup] at h
      exact Bool.noConfusion h
    | some s =>
      cases hr : s.runstate with
      | none =>
        simp only [GdbMiModel.id_is_stopped, GdbMiModel.stateMap, hs, hr,
          listLookup] at h
        exact Bool.noConfusion h
      | some rs =>
        cases rs with
        | Running ctx =>
          simp [GdbMiModel.id_is_stopped, GdbMiModel.stateMap, hs, hr,
            listLookup] at h
        | Stopped r =>
          have hrun : m.id_is_running m.id = false := by
            simp [GdbMiModel.id_is_running, GdbMiModel.stateMap, hs, hr,
              listLookup]
          simp [GdbMiModel.symbols, hrun, hs]

/-- A sample MI driver model with a running target. -/
def sampleRunning : GdbMiModel :=
  { id := 0, state := some { runstate := some (RunState.Running "ctx") } }

/-- A sample MI driver model with a stopped target. -/
def sampleStopped : GdbMiModel :=
  { id := 0, state := some { runstate := some (RunState.Stopped sampleStop) } }

/-- Witness for C7 (amended): a running target makes `symbols` error, a
stopped target lets it proceed. -/
theorem claim_C7_amended_witness :
    GdbMiModel.symbols sampleRunning =
      Except.error "Symbols can only be retrieved on a stopped target" ∧
    GdbMiModel.symbols sampleStopped = Except.ok () :=
  ⟨(claim_C7_amended sampleRunning).1 (by decide),
   (claim_C7_amended sampleStopped).2 (by decide)⟩

/-- C8: `strdistance` equals the spec's padded character-wise metric, is
zero on equal strings, and is symmetric. -/
theorem claim_C8 (a b : List Char) :
    strdistance a b = specStrDistance a b ∧
    strdistance a a = 0 ∧
    strdistance a b = strdistance b a := by
  refine ⟨strdistance_eq_spec a b, ?_, ?_⟩
  · unfold strdistance
    have h : ∀ i, Nat.dist (charCodeAt a i) (charCodeAt a i) = 0 :=
      fun i => Nat.dist_self _
    simp [h]
  · unfold strdistance
    rw [max_comm (byteLen a) (byteLen b)]
    have h : (fun i => Nat.dist (charCodeAt a i) (charCodeAt b i)) =
        (fun i => Nat.dist (charCodeAt b i) (charCodeAt a i)) :=
      funext fun i => Nat.dist_comm _ _
    rw [h]

/-- C9: pivoting a locality descriptor that is already registered fails
with the duplicate error and leaves the registry completely unchanged —
the duplicate check precedes every mutation. -/
theorem claim_C9 (reg : Registry) (locator from_url : List Char)
    (h : (listLookup reg locator).isSome = true) :
    (pivot reg locator from_url).1 =
      Except.error "Process is already registered" ∧
    (pivot reg locator from_url).2 = reg := by
  unfold pivot pivot_get_closest_id_match
  rw [if_pos h]
  exact ⟨rfl, rfl⟩

/-- Witness for C9 at a one-entry registry. -/
theorem claim_C9_witness :
    (listLookup ([(rootKey, ("R".toList, TreeIdFactory.default))] : Registry)
        rootKey).isSome = true ∧
    (pivot [(rootKey, ("R".toList, TreeIdFactory.default))] rootKey
        "u".toList).1 = Except.error "Process is already registered" ∧
    (pivot [(rootKey, ("R".toList, TreeIdFactory.default))] rootKey
        "u".toList).2 = [(rootKey, ("R".toList, TreeIdFactory.default))] := by
  have h := claim_C9 [(rootKey, ("R".toList, TreeIdFactory.default))] rootKey
    "u".toList (by decide)
  exact ⟨by decide, h.1, h.2⟩

/-- C10: `StopReason::new` is total — it returns `Ok` on every input — and
every field missing from the parsed input defaults (`reason` to the empty
string, optional fields to `None`), so an unrecognizable stop record is
neither `exited()` nor `is_sigint()`. -/
theorem claim_C10 (s : List Char) :
    ∃ r, StopReason.new s = Except.ok r ∧
      (listLookup (parse_gdb_equal_list (stripArgs s)) "reason".toList = none →
        r.reason = "" ∧ r.exited = false) ∧
      (listLookup (parse_gdb_equal_list (stripArgs s)) "signal-name".toList = none →
        r.is_sigint = false) ∧
      (listLookup (parse_gdb_equal_list (stripArgs s)) "disp".toList = none →
        r.disp = none) ∧
      (listLookup (parse_gdb_equal_list (stripArgs s)) "breakpoint_num".toList = none →
        r.breakpoint_num = none) ∧
      (listLookup (parse_gdb_equal_list (stripArgs s)) "addr".toList = none →
        r.addr = none) ∧
      (listLookup (parse_gdb_equal_list (stripArgs s)) "function".toList = none →
        r.function = none) ∧
      (listLookup (parse_gdb_equal_list (stripArgs s)) "meaning".toList = none →
        r.meaning = none) ∧
      (listLookup (parse_gdb_equal_list (stripArgs s)) "file".toList = none →
        r.file = none) ∧
      (listLookup (parse_gdb_equal_list (stripArgs s)) "fullname".toList = none →
        r.fullname = none) ∧
      (listLookup (parse_gdb_equal_list (stripArgs s)) "line".toList = none →
        r.line = none) ∧
      (listLookup (parse_gdb_equal_list (stripArgs s)) "arch".toList = none →
        r.arch = none) ∧
      (listLookup (parse_gdb_equal_list (stripArgs s)) "thread_id".toList = none →
        r.thread_id = none) ∧
      (listLookup (parse_gdb_equal_list (stripArgs s)) "stopped_threads".toList = none →
        r.stopped_threads = none) ∧
      (listLookup (parse_gdb_equal_list (stripArgs s)) "core".toList = none →
        r.core = none) ∧
      (listLookup (parse_gdb_equal_list (stripArgs s)) "exit-code".toList = none →
        r.exit_code = none) := by
  refine ⟨_, rfl, ?_, ?_, ?_, ?_, ?_, ?_, ?_, ?_, ?_, ?_, ?_, ?_, ?_, ?_, ?_⟩
  · intro h
    constructor
    · rw [h]
      rfl
    · simp only [StopReason.exited]
      rw [h]
      rfl
  · intro h
    simp only [StopReason.is_sigint]
    rw [h]
    rfl
  all_goals (intro h; rw [h]; rfl)

/-- Witness for C10 on an input with no recognizable fields. -/
theorem claim_C10_witness :
    ∃ r, StopReason.new "xyz".toList = Except.ok r ∧
      r.reason = "" ∧ r.exited = false ∧ r.is_sigint = false ∧
      r.disp = none ∧ r.exit_code = none := by
  obtain ⟨r, hr, h1, h2, h3, h4, h5, h6, h7, h8, h9, h10, h11, h12, h13, h14, h15⟩ :=
    claim_C10 "xyz".toList
  exact ⟨r, hr, (h1 (by decide)).1, (h1 (by decide)).2, h2 (by decide),
    h3 (by decide), h15 (by decide)⟩

end Snapped
